import Mathlib

/-!
Verification of the scoring and aggregation engine of the `ttc-survey`
repository.

The development shallowly embeds the arithmetic core of the repository:

* the two survey-submission scorers (`submitSurvey` in the survey page,
  here `submitSurvey1`, and the second survey flow's `submitSurvey`,
  here `submitScores2` / `overallScore2`);
* the analytics normalizer `toPercentage`, the per-response accessor
  `getSectionScore`, and the aggregate builder `calculateAggregates`
  (department × section, role × section, department × role maps,
  perception-gap detector, and `avgOverall`).

JavaScript numbers are modelled as exact rationals (`ℚ`); `Math.round`
is `jsRound` (round half toward +∞); JS objects keyed by strings are
modelled as functions `String → Option _`, with absent keys mapped to
`none`.  A separate extended model (`StoredX`, `toPercentageX`) covers
runtime values outside the TypeScript-declared types, with `JNum`
modelling a JS number that may be `NaN`.
-/

namespace TTC

/-- JavaScript `Math.round` on a finite number: round half toward +∞. -/
def jsRound (q : ℚ) : ℤ := ⌊q + 1/2⌋

/-! ### Survey data model (part_000) -/

/-- A survey question as loaded by the survey pages: its id, its
`question_type` (`"scale"` or `"open"`) and its `weight`. -/
structure Question where
  id : String
  question_type : String
  weight : ℚ
deriving DecidableEq, Repr

/-- A section: a `section_key` together with its questions, as built by
the pages' `sectionMap` grouping. -/
structure Sec where
  key : String
  questions : List Question
deriving DecidableEq, Repr

/-- An answer set `finalAnswers : Record<string, number>`: a partial map
from question id to the numeric answer. -/
def Answers : Type := String → Option ℚ

/-- JS truthiness of `finalAnswers[q.id]`: the key is present and the
value is not 0. -/
def truthyAnswer (ans : Answers) (q : Question) : Bool :=
  match ans q.id with
  | some v => decide (v ≠ 0)
  | none => false

/-- The answer value used once the truthiness test passed. -/
def answerVal (ans : Answers) (q : Question) : ℚ :=
  (ans q.id).getD 0

/-- The guard of the first scorer's accumulation loop:
`q.question_type === 'scale' && finalAnswers[q.id]`. -/
def isScaleAnswered (ans : Answers) (q : Question) : Bool :=
  q.question_type == "scale" && truthyAnswer ans q

/-- One section's `(sectionTotal, sectionMax)` accumulation in the first
scorer: for each question passing the guard, add `answer * weight` to the
total and `4 * weight` to the max. -/
def sectionTotals1 (ans : Answers) (qs : List Question) : ℚ × ℚ :=
  qs.foldl
    (fun acc q =>
      if isScaleAnswered ans q then
        (acc.1 + answerVal ans q * q.weight, acc.2 + 4 * q.weight)
      else acc)
    (0, 0)

/-- A `{score, max, percentage}` record as stored in `section_scores`. -/
structure SectionScore where
  score : ℚ
  max : ℚ
  percentage : ℤ
deriving DecidableEq, Repr

/-- The record the first scorer writes for a section that passed the
`sectionMax > 0` test: `percentage = Math.round((sectionTotal / sectionMax) * 100)`. -/
def scores1Entry (ans : Answers) (sec : Sec) : SectionScore :=
  ⟨(sectionTotals1 ans sec.questions).1,
   (sectionTotals1 ans sec.questions).2,
   jsRound ((sectionTotals1 ans sec.questions).1 / (sectionTotals1 ans sec.questions).2 * 100)⟩

/-- One step of the first scorer's `sectionScores` construction: an entry
is written only when `sectionMax > 0`; later writes to the same key
overwrite earlier ones. -/
def scores1Step (ans : Answers) (m : String → Option SectionScore) (sec : Sec) :
    String → Option SectionScore :=
  if 0 < (sectionTotals1 ans sec.questions).2 then
    fun k => if k = sec.key then some (scores1Entry ans sec) else m k
  else m

/-- The `sectionScores` object built by the first scorer. -/
def submitScores1 (secs : List Sec) (ans : Answers) : String → Option SectionScore :=
  secs.foldl (scores1Step ans) (fun _ => none)

/-- The first scorer's running `(totalScore, maxScore)`: accumulated only
inside the `sectionMax > 0` branch. -/
def submitTotals1 (secs : List Sec) (ans : Answers) : ℚ × ℚ :=
  secs.foldl
    (fun acc sec =>
      let t := (sectionTotals1 ans sec.questions).1
      let mx := (sectionTotals1 ans sec.questions).2
      if 0 < mx then (acc.1 + t, acc.2 + mx) else acc)
    (0, 0)

/-- `overallScore = maxScore > 0 ? Math.round((totalScore / maxScore) * 100) : 0`. -/
def overallScore1 (secs : List Sec) (ans : Answers) : ℤ :=
  let t := (submitTotals1 secs ans).1
  let mx := (submitTotals1 secs ans).2
  if 0 < mx then jsRound (t / mx * 100) else 0

/-- The row inserted by the first scorer's `submitSurvey`: the derived
`section_scores`, the `overall_score`, and whether `completed_at` is set
(the insert literal always sets it to the current time). -/
structure SubmitInsert where
  section_scores : String → Option SectionScore
  overall_score : ℤ
  completed_at_set : Bool

/-- The first survey flow's `submitSurvey` (part_000 lines 155–211),
restricted to the derived data it stores. -/
def submitSurvey1 (secs : List Sec) (ans : Answers) : SubmitInsert :=
  { section_scores := submitScores1 secs ans
    overall_score := overallScore1 secs ans
    completed_at_set := true }

/-- One section's `(sectionTotal, sectionMax)` in the second scorer
(part_000 lines 541–579): the guard is only `finalAnswers[q.id]`, with no
`question_type` test. -/
def sectionTotals2 (ans : Answers) (qs : List Question) : ℚ × ℚ :=
  qs.foldl
    (fun acc q =>
      if truthyAnswer ans q then
        (acc.1 + answerVal ans q * q.weight, acc.2 + 4 * q.weight)
      else acc)
    (0, 0)

/-- The record the second scorer writes for a section:
`percentage = sectionMax > 0 ? Math.round((sectionTotal / sectionMax) * 100) : 0`. -/
def scores2Entry (ans : Answers) (sec : Sec) : SectionScore :=
  ⟨(sectionTotals2 ans sec.questions).1,
   (sectionTotals2 ans sec.questions).2,
   if 0 < (sectionTotals2 ans sec.questions).2 then
     jsRound ((sectionTotals2 ans sec.questions).1 / (sectionTotals2 ans sec.questions).2 * 100)
   else 0⟩

/-- One step of the second scorer's `sectionScores` construction: an
entry is written for EVERY section, answered or not. -/
def scores2Step (ans : Answers) (m : String → Option SectionScore) (sec : Sec) :
    String → Option SectionScore :=
  fun k => if k = sec.key then some (scores2Entry ans sec) else m k

/-- The `sectionScores` object of the second scorer. -/
def submitScores2 (secs : List Sec) (ans : Answers) : String → Option SectionScore :=
  secs.foldl (scores2Step ans) (fun _ => none)

/-! ### Fold characterizations for the scorers -/

/-- Closed form of the `(sectionTotal, sectionMax)` accumulation of the
first scorer, with a general starting accumulator. -/
theorem sectionTotals1_foldl (ans : Answers) :
    ∀ (qs : List Question) (a b : ℚ),
      List.foldl
        (fun acc q =>
          if isScaleAnswered ans q then
            (acc.1 + answerVal ans q * q.weight, acc.2 + 4 * q.weight)
          else acc)
        (a, b) qs
        = (a + ((qs.filter (isScaleAnswered ans)).map (fun q => answerVal ans q * q.weight)).sum,
           b + ((qs.filter (isScaleAnswered ans)).map (fun q => 4 * q.weight)).sum)
  | [], a, b => by simp
  | q :: qs, a, b => by
    by_cases h : isScaleAnswered ans q
    · rw [List.foldl_cons, if_pos h, sectionTotals1_foldl ans qs,
        List.filter_cons_of_pos h, List.map_cons, List.sum_cons, List.map_cons,
        List.sum_cons, Prod.mk.injEq]
      exact ⟨by ring, by ring⟩
    · rw [List.foldl_cons, if_neg h, sectionTotals1_foldl ans qs,
        List.filter_cons_of_neg h]

/-- `sectionTotal` of the first scorer is the sum of `answer * weight`
over the answered scale questions; `sectionMax` the sum of `4 * weight`. -/
theorem sectionTotals1_eq (ans : Answers) (qs : List Question) :
    sectionTotals1 ans qs
      = (((qs.filter (isScaleAnswered ans)).map (fun q => answerVal ans q * q.weight)).sum,
         ((qs.filter (isScaleAnswered ans)).map (fun q => 4 * q.weight)).sum) := by
  simpa using sectionTotals1_foldl ans qs 0 0

/-- Closed form of the second scorer's accumulation. -/
theorem sectionTotals2_foldl (ans : Answers) :
    ∀ (qs : List Question) (a b : ℚ),
      List.foldl
        (fun acc q =>
          if truthyAnswer ans q then
            (acc.1 + answerVal ans q * q.weight, acc.2 + 4 * q.weight)
          else acc)
        (a, b) qs
        = (a + ((qs.filter (truthyAnswer ans)).map (fun q => answerVal ans q * q.weight)).sum,
           b + ((qs.filter (truthyAnswer ans)).map (fun q => 4 * q.weight)).sum)
  | [], a, b => by simp
  | q :: qs, a, b => by
    by_cases h : truthyAnswer ans q
    · rw [List.foldl_cons, if_pos h, sectionTotals2_foldl ans qs,
        List.filter_cons_of_pos h, List.map_cons, List.sum_cons, List.map_cons,
        List.sum_cons, Prod.mk.injEq]
      exact ⟨by ring, by ring⟩
    · rw [List.foldl_cons, if_neg h, sectionTotals2_foldl ans qs,
        List.filter_cons_of_neg h]

/-- `sectionTotals2` in closed form. -/
theorem sectionTotals2_eq (ans : Answers) (qs : List Question) :
    sectionTotals2 ans qs
      = (((qs.filter (truthyAnswer ans)).map (fun q => answerVal ans q * q.weight)).sum,
         ((qs.filter (truthyAnswer ans)).map (fun q => 4 * q.weight)).sum) := by
  simpa using sectionTotals2_foldl ans qs 0 0

/-- The Boolean test selecting the sections the first scorer counts into
the overall totals. -/
def definedSec (ans : Answers) (sec : Sec) : Bool :=
  decide (0 < (sectionTotals1 ans sec.questions).2)

/-- Closed form of the first scorer's overall `(totalScore, maxScore)`
accumulation, with a general starting accumulator. -/
theorem submitTotals1_foldl (ans : Answers) :
    ∀ (secs : List Sec) (a b : ℚ),
      List.foldl
        (fun acc sec =>
          if 0 < (sectionTotals1 ans sec.questions).2 then
            (acc.1 + (sectionTotals1 ans sec.questions).1,
             acc.2 + (sectionTotals1 ans sec.questions).2)
          else acc)
        (a, b) secs
        = (a + ((secs.filter (definedSec ans)).map
              (fun sec => (sectionTotals1 ans sec.questions).1)).sum,
           b + ((secs.filter (definedSec ans)).map
              (fun sec => (sectionTotals1 ans sec.questions).2)).sum)
  | [], a, b => by simp
  | sec :: secs, a, b => by
    by_cases h : 0 < (sectionTotals1 ans sec.questions).2
    · have hb : definedSec ans sec = true := by simpa [definedSec] using h
      rw [List.foldl_cons, if_pos h, submitTotals1_foldl ans secs,
        List.filter_cons_of_pos hb, List.map_cons, List.sum_cons, List.map_cons,
        List.sum_cons, Prod.mk.injEq]
      exact ⟨by ring, by ring⟩
    · have hb : ¬ definedSec ans sec = true := by simpa [definedSec] using h
      rw [List.foldl_cons, if_neg h, submitTotals1_foldl ans secs,
        List.filter_cons_of_neg hb]

/-- `submitTotals1` in closed form: the overall totals sum the per-section
totals over exactly the sections with `sectionMax > 0`. -/
theorem submitTotals1_eq (ans : Answers) (secs : List Sec) :
    submitTotals1 secs ans
      = (((secs.filter (definedSec ans)).map
            (fun sec => (sectionTotals1 ans sec.questions).1)).sum,
         ((secs.filter (definedSec ans)).map
            (fun sec => (sectionTotals1 ans sec.questions).2)).sum) := by
  simpa [submitTotals1] using submitTotals1_foldl ans secs 0 0

/-- Sections whose key differs from `k` leave the map unchanged at `k`
(first scorer). -/
theorem scores1_foldl_frame (ans : Answers) :
    ∀ (secs : List Sec) (m : String → Option SectionScore) (k : String),
      (∀ sec ∈ secs, sec.key ≠ k) →
      List.foldl (scores1Step ans) m secs k = m k
  | [], _, _, _ => rfl
  | sec :: secs, m, k, h => by
    have hk : sec.key ≠ k := h sec (by simp)
    have hrest : ∀ s ∈ secs, Sec.key s ≠ k := fun s hs => h s (by simp [hs])
    rw [List.foldl_cons, scores1_foldl_frame ans secs _ k hrest]
    by_cases hmx : 0 < (sectionTotals1 ans sec.questions).2 <;>
      simp [scores1Step, hmx, Ne.symm hk]

/-- If no section with key `k` has `sectionMax > 0`, the first scorer's
map stays without an entry at `k`. -/
theorem scores1_foldl_none (ans : Answers) :
    ∀ (secs : List Sec) (m : String → Option SectionScore) (k : String),
      m k = none →
      (∀ sec ∈ secs, sec.key = k → ¬ 0 < (sectionTotals1 ans sec.questions).2) →
      List.foldl (scores1Step ans) m secs k = none
  | [], m, k, hm, _ => hm
  | sec :: secs, m, k, hm, h => by
    rw [List.foldl_cons]
    refine scores1_foldl_none ans secs _ k ?_ (fun s hs => h s (by simp [hs]))
    by_cases hmx : 0 < (sectionTotals1 ans sec.questions).2
    · have hk : sec.key ≠ k := fun hkk => h sec (by simp) hkk hmx
      simp [scores1Step, hmx, Ne.symm hk, hm]
    · simp [scores1Step, hmx, hm]

/-- With pairwise-distinct keys, a section with `sectionMax > 0` ends up
in the first scorer's map with exactly its entry. -/
theorem scores1_foldl_mem (ans : Answers) :
    ∀ (secs : List Sec) (m : String → Option SectionScore) (sec : Sec),
      sec ∈ secs → (secs.map Sec.key).Nodup →
      0 < (sectionTotals1 ans sec.questions).2 →
      List.foldl (scores1Step ans) m secs sec.key = some (scores1Entry ans sec)
  | [], _, _, hmem, _, _ => absurd hmem (List.not_mem_nil _)
  | x :: secs, m, sec, hmem, hnd, hmx => by
    rw [List.map_cons, List.nodup_cons] at hnd
    rcases List.mem_cons.mp hmem with rfl | hmem
    · rw [List.foldl_cons]
      have hrest : ∀ s ∈ secs, Sec.key s ≠ sec.key := by
        intro s hs hkey
        exact hnd.1 (hkey ▸ List.mem_map_of_mem Sec.key hs)
      rw [scores1_foldl_frame ans secs _ _ hrest]
      simp [scores1Step, hmx]
    · rw [List.foldl_cons]
      exact scores1_foldl_mem ans secs _ sec hmem hnd.2 hmx

/-- Sections whose key differs from `k` leave the map unchanged at `k`
(second scorer). -/
theorem scores2_foldl_frame (ans : Answers) :
    ∀ (secs : List Sec) (m : String → Option SectionScore) (k : String),
      (∀ sec ∈ secs, sec.key ≠ k) →
      List.foldl (scores2Step ans) m secs k = m k
  | [], _, _, _ => rfl
  | sec :: secs, m, k, h => by
    have hk : sec.key ≠ k := h sec (by simp)
    have hrest : ∀ s ∈ secs, Sec.key s ≠ k := fun s hs => h s (by simp [hs])
    rw [List.foldl_cons, scores2_foldl_frame ans secs _ k hrest]
    simp [scores2Step, Ne.symm hk]

/-- If every section with key `k` writes the same entry `e`, and at least
one such section exists, the second scorer's map holds `e` at `k`. -/
theorem scores2_foldl_mem (ans : Answers) (e : SectionScore) :
    ∀ (secs : List Sec) (m : String → Option SectionScore) (k : String),
      (∃ sec ∈ secs, sec.key = k) →
      (∀ sec ∈ secs, sec.key = k → scores2Entry ans sec = e) →
      List.foldl (scores2Step ans) m secs k = some e
  | [], _, _, hex, _ => by simp at hex
  | x :: secs, m, k, hex, hall => by
    rw [List.foldl_cons]
    by_cases hrest : ∃ sec ∈ secs, sec.key = k
    · exact scores2_foldl_mem ans e secs _ k hrest (fun s hs => hall s (by simp [hs]))
    · have hxk : x.key = k := by
        rcases hex with ⟨s, hs, hsk⟩
        rcases List.mem_cons.mp hs with rfl | hs
        · exact hsk
        · exact absurd ⟨s, hs, hsk⟩ hrest
      have hnone : ∀ s ∈ secs, Sec.key s ≠ k := by
        intro s hs hsk
        exact hrest ⟨s, hs, hsk⟩
      rw [scores2_foldl_frame ans secs _ k hnone]
      have := hall x (by simp) hxk
      simp [scores2Step, hxk, this]

/-- `Math.round` of a value in `[0, 100]` stays in `[0, 100]`. -/
theorem jsRound_mem_Icc {q : ℚ} (h0 : 0 ≤ q) (h1 : q ≤ 100) :
    0 ≤ jsRound q ∧ jsRound q ≤ 100 := by
  constructor
  · exact Int.le_floor.mpr (by push_cast; linarith)
  · have h2 := Int.floor_mono (show q + 1/2 ≤ (201:ℚ)/2 by linarith)
    have h3 : ⌊(201:ℚ)/2⌋ = 100 := by norm_num
    rw [h3] at h2
    exact h2

/-! ### Example inputs -/

/-- Example question `q1`, a scale question of weight 1. -/
def exQ1 : Question := ⟨"q1", "scale", 1⟩

/-- Example question `q2`, a scale question of weight 1. -/
def exQ2 : Question := ⟨"q2", "scale", 1⟩

/-- Example answers: `q1 ↦ 4`, `q2 ↦ 2`. -/
def exAns : Answers := fun i => if i = "q1" then some 4 else if i = "q2" then some 2 else none

/-- Example section holding `q1` and `q2`. -/
def exSec : Sec := ⟨"s", [exQ1, exQ2]⟩

/-- Example survey with the single section `exSec`. -/
def exSecs : List Sec := [exSec]

/-- Example with unequal section weights: section `s1` holds a weight-1
question, section `s2` a weight-10 question. -/
def exSecsW : List Sec := [⟨"s1", [⟨"qa", "scale", 1⟩]⟩, ⟨"s2", [⟨"qb", "scale", 10⟩]⟩]

/-- Answers for `exSecsW`: `qa ↦ 4`, `qb ↦ 1`. -/
def exAnsW : Answers := fun i => if i = "qa" then some 4 else if i = "qb" then some 1 else none

/-- A one-section survey whose only question goes unanswered. -/
def exSecEmpty : Sec := ⟨"a", [⟨"qa", "scale", 1⟩]⟩

/-- The list holding just `exSecEmpty`. -/
def exSecsEmpty : List Sec := [exSecEmpty]

/-- The empty answer set. -/
def noAns : Answers := fun _ => none

/-! ### Claims about the Response Scorer -/

/-- C1: for every response whose answered scale questions in a section
have values in `{1,2,3,4}` and positive weights, the scorer emits for
that section a `SectionScore` whose percentage equals
`round(100 * Σ aᵢwᵢ / Σ 4wᵢ)` over the answered scale questions of the
section, and that percentage lies in `[0, 100]`. -/
theorem C1_section_percentage_correct
    (secs : List Sec) (ans : Answers) (sec : Sec)
    (hmem : sec ∈ secs)
    (hnd : (secs.map Sec.key).Nodup)
    (hvals : ∀ q ∈ sec.questions, isScaleAnswered ans q = true →
      answerVal ans q = 1 ∨ answerVal ans q = 2 ∨ answerVal ans q = 3 ∨ answerVal ans q = 4)
    (hw : ∀ q ∈ sec.questions, 0 < q.weight)
    (hsome : ∃ q ∈ sec.questions, isScaleAnswered ans q = true) :
    ∃ e : SectionScore,
      (submitSurvey1 secs ans).section_scores sec.key = some e
      ∧ e.percentage = jsRound (100 *
          ((sec.questions.filter (isScaleAnswered ans)).map
            (fun q => answerVal ans q * q.weight)).sum /
          ((sec.questions.filter (isScaleAnswered ans)).map
            (fun q => 4 * q.weight)).sum)
      ∧ 0 ≤ e.percentage ∧ e.percentage ≤ 100 := by
  set l := sec.questions.filter (isScaleAnswered ans) with hl
  set t := (l.map (fun q => answerVal ans q * q.weight)).sum with ht
  set mx := (l.map (fun q => 4 * q.weight)).sum with hmx
  have hql : ∀ q ∈ l, q ∈ sec.questions ∧ isScaleAnswered ans q = true := by
    intro q hq
    exact ⟨List.mem_of_mem_filter hq, List.of_mem_filter hq⟩
  have hlne : l ≠ [] := by
    rcases hsome with ⟨q, hq, hsc⟩
    exact List.ne_nil_of_mem (List.mem_filter.mpr ⟨hq, hsc⟩)
  have hmxpos : 0 < mx := by
    refine List.sum_pos _ ?_ (by simpa using hlne)
    intro x hx
    rcases List.mem_map.mp hx with ⟨q, hq, rfl⟩
    have := hw q (hql q hq).1
    linarith
  have htnonneg : 0 ≤ t := by
    refine List.sum_nonneg ?_
    intro x hx
    rcases List.mem_map.mp hx with ⟨q, hq, rfl⟩
    have hwq := hw q (hql q hq).1
    rcases hvals q (hql q hq).1 (hql q hq).2 with h | h | h | h <;> rw [h] <;> linarith
  have htle : t ≤ mx := by
    rw [ht, hmx]
    refine List.sum_le_sum ?_
    intro q hq
    have hwq := hw q (hql q hq).1
    rcases hvals q (hql q hq).1 (hql q hq).2 with h | h | h | h <;> rw [h] <;> linarith
  have htotals : sectionTotals1 ans sec.questions = (t, mx) := sectionTotals1_eq ans sec.questions
  have hmx2 : 0 < (sectionTotals1 ans sec.questions).2 := by rw [htotals]; exact hmxpos
  have hlook : (submitSurvey1 secs ans).section_scores sec.key
      = some (scores1Entry ans sec) :=
    scores1_foldl_mem ans secs _ sec hmem hnd hmx2
  refine ⟨scores1Entry ans sec, hlook, ?_, ?_, ?_⟩
  · show jsRound ((sectionTotals1 ans sec.questions).1
        / (sectionTotals1 ans sec.questions).2 * 100) = _
    rw [htotals]
    congr 1
    field_simp
    ring
  · show (0:ℤ) ≤ jsRound ((sectionTotals1 ans sec.questions).1
        / (sectionTotals1 ans sec.questions).2 * 100)
    rw [htotals]
    refine (jsRound_mem_Icc ?_ ?_).1
    · positivity
    · rw [div_mul_eq_mul_div, div_le_iff₀ hmxpos]
      linarith
  · show jsRound ((sectionTotals1 ans sec.questions).1
        / (sectionTotals1 ans sec.questions).2 * 100) ≤ 100
    rw [htotals]
    refine (jsRound_mem_Icc ?_ ?_).2
    · positivity
    · rw [div_mul_eq_mul_div, div_le_iff₀ hmxpos]
      linarith

/-- Witness for C1 at the concrete survey `exSecs` with answers
`{q1 ↦ 4, q2 ↦ 2}`: the emitted percentage is `round(100·6/8) = 75`. -/
theorem C1_witness :
    ∃ e : SectionScore,
      (submitSurvey1 exSecs exAns).section_scores exSec.key = some e
      ∧ e.percentage = jsRound (100 *
          ((exSec.questions.filter (isScaleAnswered exAns)).map
            (fun q => answerVal exAns q * q.weight)).sum /
          ((exSec.questions.filter (isScaleAnswered exAns)).map
            (fun q => 4 * q.weight)).sum)
      ∧ 0 ≤ e.percentage ∧ e.percentage ≤ 100 := by
  refine C1_section_percentage_correct exSecs exAns exSec (by simp [exSecs]) (by simp [exSecs]) ?_ ?_ ?_
  · intro q hq _
    simp only [exSec, exQ1, exQ2, List.mem_cons, List.not_mem_nil, or_false] at hq
    rcases hq with rfl | rfl <;> simp [answerVal, exAns]
  · intro q hq
    simp only [exSec, exQ1, exQ2, List.mem_cons, List.not_mem_nil, or_false] at hq
    rcases hq with rfl | rfl <;> norm_num
  · exact ⟨exQ1, by simp [exSec], by simp [isScaleAnswered, truthyAnswer, exAns, exQ1]⟩

/-- C2: whenever at least one section has a defined `SectionScore`, the
overall score equals `round(100 * totalSum / maxSum)` where `totalSum`
and `maxSum` sum the per-section `score` and `max` over exactly the
sections with a defined score; and (second conjunct) on the concrete
unequal-weight example this differs from the average of the per-section
percentages. -/
theorem C2_overall_from_summed_totals
    (secs : List Sec) (ans : Answers)
    (h : ∃ sec ∈ secs, 0 < (sectionTotals1 ans sec.questions).2) :
    ((submitSurvey1 secs ans).overall_score
      = jsRound (100 *
          ((secs.filter (definedSec ans)).map
            (fun sec => (sectionTotals1 ans sec.questions).1)).sum /
          ((secs.filter (definedSec ans)).map
            (fun sec => (sectionTotals1 ans sec.questions).2)).sum))
    ∧ (submitSurvey1 exSecsW exAnsW).overall_score
      ≠ jsRound (((((submitSurvey1 exSecsW exAnsW).section_scores "s1").map
            (fun e => (e.percentage : ℚ))).getD 0 +
          (((submitSurvey1 exSecsW exAnsW).section_scores "s2").map
            (fun e => (e.percentage : ℚ))).getD 0) / 2) := by
  constructor
  · set fl := secs.filter (definedSec ans) with hfl
    set T := (fl.map (fun sec => (sectionTotals1 ans sec.questions).1)).sum with hT
    set M := (fl.map (fun sec => (sectionTotals1 ans sec.questions).2)).sum with hM
    have hMpos : 0 < M := by
      rcases h with ⟨sec, hmem, hpos⟩
      have hmemf : sec ∈ fl :=
        List.mem_filter.mpr ⟨hmem, by simpa [definedSec] using hpos⟩
      refine List.sum_pos _ ?_ (List.ne_nil_of_mem (List.mem_map_of_mem _ hmemf))
      intro x hx
      rcases List.mem_map.mp hx with ⟨s, hs, rfl⟩
      have := List.of_mem_filter hs
      simpa [definedSec] using this
    have htot : submitTotals1 secs ans = (T, M) := by
      rw [submitTotals1_eq ans secs, ← hfl, ← hT, ← hM]
    show overallScore1 secs ans = _
    rw [overallScore1, htot]
    simp only [if_pos hMpos]
    congr 1
    field_simp
    ring
  · have h1 : submitScores1 exSecsW exAnsW "s1" = some ⟨4, 4, 100⟩ := by
      simp [submitScores1, scores1Step, scores1Entry, sectionTotals1, isScaleAnswered,
        truthyAnswer, answerVal, exSecsW, exAnsW]
      norm_num [jsRound]
    have h2 : submitScores1 exSecsW exAnsW "s2" = some ⟨10, 40, 25⟩ := by
      simp [submitScores1, scores1Step, scores1Entry, sectionTotals1, isScaleAnswered,
        truthyAnswer, answerVal, exSecsW, exAnsW]
      norm_num [jsRound]
    have h3 : overallScore1 exSecsW exAnsW = 32 := by
      simp [overallScore1, submitTotals1, sectionTotals1, isScaleAnswered,
        truthyAnswer, answerVal, exSecsW, exAnsW]
      norm_num [jsRound]
    show overallScore1 exSecsW exAnsW ≠ _
    rw [h3]
    show (32:ℤ) ≠ jsRound (((((submitScores1 exSecsW exAnsW) "s1").map
        (fun e => (e.percentage : ℚ))).getD 0 +
      (((submitScores1 exSecsW exAnsW) "s2").map
        (fun e => (e.percentage : ℚ))).getD 0) / 2)
    rw [h1, h2]
    norm_num [jsRound]

/-- Witness for C2 at the concrete two-section survey `exSecsW`. -/
theorem C2_witness :
    (submitSurvey1 exSecsW exAnsW).overall_score
      = jsRound (100 *
          ((exSecsW.filter (definedSec exAnsW)).map
            (fun sec => (sectionTotals1 exAnsW sec.questions).1)).sum /
          ((exSecsW.filter (definedSec exAnsW)).map
            (fun sec => (sectionTotals1 exAnsW sec.questions).2)).sum) := by
  refine (C2_overall_from_summed_totals exSecsW exAnsW ?_).1
  refine ⟨⟨"s1", [⟨"qa", "scale", 1⟩]⟩, by simp [exSecsW], ?_⟩
  simp [sectionTotals1, isScaleAnswered, truthyAnswer, answerVal, exAnsW]

/-- C3 counterexample: the second survey flow's scorer does NOT omit a
section in which nothing was answered — it emits
`{score: 0, max: 0, percentage: 0}` for it, contradicting the claim that
an entry with percentage 0 is never emitted for such a section. -/
theorem C3_counterexample :
    submitScores2 exSecsEmpty noAns "a" = some ⟨0, 0, 0⟩ := by
  simp [submitScores2, scores2Step, scores2Entry, sectionTotals2, truthyAnswer,
    noAns, exSecsEmpty, exSecEmpty]

/-- C3 as amended: the first scorer (survey page, part_000 lines
163–181) omits from `sectionScores` every key all of whose sections have
accumulated max 0; the second scorer (part_000 lines 541–566) instead
always emits an entry, with `{score: 0, max: 0, percentage: 0}` when no
question of the section was answered. -/
theorem C3_amended_omitted_or_zero_entry :
    (∀ (secs : List Sec) (ans : Answers) (k : String),
      (∀ sec ∈ secs, sec.key = k → ¬ 0 < (sectionTotals1 ans sec.questions).2) →
      submitScores1 secs ans k = none)
    ∧ (∀ (secs : List Sec) (ans : Answers) (sec : Sec),
      sec ∈ secs →
      (∀ s ∈ secs, s.key = sec.key → ∀ q ∈ s.questions, ¬ truthyAnswer ans q) →
      submitScores2 secs ans sec.key = some ⟨0, 0, 0⟩) := by
  constructor
  · intro secs ans k h
    exact scores1_foldl_none ans secs _ k rfl h
  · intro secs ans sec hmem h
    refine scores2_foldl_mem ans ⟨0, 0, 0⟩ secs _ sec.key ⟨sec, hmem, rfl⟩ ?_
    intro s hs hk
    have hfil : s.questions.filter (truthyAnswer ans) = [] :=
      List.filter_eq_nil_iff.mpr (h s hs hk)
    have htot : sectionTotals2 ans s.questions = (0, 0) := by
      rw [sectionTotals2_eq, hfil]
      simp
    simp [scores2Entry, htot]

/-- Witness for C3's amended statement at the concrete unanswered
one-section survey. -/
theorem C3_witness :
    submitScores1 exSecsEmpty noAns "a" = none
    ∧ submitScores2 exSecsEmpty noAns exSecEmpty.key = some ⟨0, 0, 0⟩ := by
  constructor
  · refine C3_amended_omitted_or_zero_entry.1 exSecsEmpty noAns "a" ?_
    intro sec hmem _
    simp only [exSecsEmpty, List.mem_singleton] at hmem
    subst hmem
    simp [sectionTotals2, exSecEmpty, sectionTotals1, isScaleAnswered, truthyAnswer, noAns]
  · refine C3_amended_omitted_or_zero_entry.2 exSecsEmpty noAns exSecEmpty (by simp [exSecsEmpty]) ?_
    intro s hs _ q _
    simp [truthyAnswer, noAns]

/-- C4 counterexample: on a submission in which no scale question was
answered at all, the first survey flow's `submitSurvey` stores
`overall_score = 0` and still sets `completed_at` — it does not fail and
does not leave the response incomplete. -/
theorem C4_counterexample :
    (submitSurvey1 exSecsEmpty noAns).overall_score = 0
    ∧ (submitSurvey1 exSecsEmpty noAns).completed_at_set = true
    ∧ (submitSurvey1 exSecsEmpty noAns).section_scores "a" = none := by
  refine ⟨?_, rfl, ?_⟩
  · show overallScore1 exSecsEmpty noAns = 0
    simp [overallScore1, submitTotals1, sectionTotals1, isScaleAnswered, truthyAnswer,
      noAns, exSecsEmpty, exSecEmpty]
  · simp [submitSurvey1, submitScores1, scores1Step, sectionTotals1, isScaleAnswered,
      truthyAnswer, noAns, exSecsEmpty, exSecEmpty]

/-- C4 as amended: when every section's accumulated max is 0, the code
does not raise any error (no `InsufficientAnswers` exists anywhere in the
repository); `submitSurvey` stores `overall_score = 0` via the
`maxScore > 0 ? … : 0` fallback, emits an empty `sectionScores` map, and
still marks the response completed by setting `completed_at`. -/
theorem C4_amended_zero_score_and_completed
    (secs : List Sec) (ans : Answers)
    (h : ∀ sec ∈ secs, ¬ 0 < (sectionTotals1 ans sec.questions).2) :
    (submitSurvey1 secs ans).overall_score = 0
    ∧ (submitSurvey1 secs ans).completed_at_set = true
    ∧ ∀ k, (submitSurvey1 secs ans).section_scores k = none := by
  have hfil : secs.filter (definedSec ans) = [] := by
    refine List.filter_eq_nil_iff.mpr ?_
    intro sec hmem
    simpa [definedSec] using h sec hmem
  have htot : submitTotals1 secs ans = (0, 0) := by
    rw [submitTotals1_eq ans secs, hfil]
    simp
  refine ⟨?_, rfl, ?_⟩
  · show overallScore1 secs ans = 0
    rw [overallScore1, htot]
    norm_num
  · intro k
    exact scores1_foldl_none ans secs _ k rfl (fun sec hmem _ => h sec hmem)

/-- Witness for C4's amended statement at the concrete unanswered
one-section survey. -/
theorem C4_witness :
    (submitSurvey1 exSecsEmpty noAns).overall_score = 0
    ∧ (submitSurvey1 exSecsEmpty noAns).completed_at_set = true
    ∧ ∀ k, (submitSurvey1 exSecsEmpty noAns).section_scores k = none := by
  refine C4_amended_zero_score_and_completed exSecsEmpty noAns ?_
  intro sec hmem
  simp only [exSecsEmpty, List.mem_singleton] at hmem
  subst hmem
  simp [sectionTotals1, isScaleAnswered, truthyAnswer, noAns, exSecEmpty]

/-! ### Analytics data model (admin analytics page, second revision) -/

/-- A stored `section_scores` value as typed by the analytics page:
either a bare number (historical 1–4 value) or a
`{score, max, percentage}` record. -/
inductive Stored where
  | num (v : ℚ)
  | obj (score maxVal percentage : ℚ)
deriving DecidableEq

/-- The analytics normalizer `toPercentage`: `undefined`/`null` maps to
`null`; an object bearing a `percentage` field passes it through
unchanged; a bare number maps to `Math.round((value / 4) * 100)`. -/
def toPercentage : Option Stored → Option ℚ
  | none => none
  | some (.obj _ _ p) => some p
  | some (.num v) => some ((jsRound (v / 4 * 100) : ℤ) : ℚ)

/-- A completed response row as the analytics page reads it. -/
structure ResponseData where
  respondent_department : Option String
  respondent_role : Option String
  respondent_company : Option String
  section_scores : String → Option Stored
  overall_score : ℚ

/-- `getSectionScore`: look the section up in `section_scores` and
normalize. -/
def getSectionScore (r : ResponseData) (sectionKey : String) : Option ℚ :=
  toPercentage (r.section_scores sectionKey)

/-- JS `x || 'Unknown'` on a nullable string: `null`, `undefined` and the
empty string are falsy and fall back to `"Unknown"`. -/
def jsOrUnknown : Option String → String
  | none => "Unknown"
  | some s => if s = "" then "Unknown" else s

/-- The department bucket of a response. -/
def deptOf (r : ResponseData) : String := jsOrUnknown r.respondent_department

/-- The role bucket of a response. -/
def roleOf (r : ResponseData) : String := jsOrUnknown r.respondent_role

/-- One of the eight fixed sections of the analytics page. -/
structure SectionInfo where
  key : String
  name : String
  short : String
deriving DecidableEq

/-- The `SECTIONS` constant of the analytics page. -/
def SECTIONS : List SectionInfo :=
  [⟨"work_changes", "Work Changes", "Work Chg"⟩,
   ⟨"finding_info", "Finding Info", "Find Info"⟩,
   ⟨"speaking_up", "Speaking Up", "Speak Up"⟩,
   ⟨"cross_team", "Cross Team", "Cross Tm"⟩,
   ⟨"leadership", "Leadership", "Leader"⟩,
   ⟨"during_change", "During Change", "Dur Chg"⟩,
   ⟨"culture", "Culture", "Culture"⟩,
   ⟨"overload", "Overload", "Overload"⟩]

/-- The section keys. -/
def sectionKeys : List String := SECTIONS.map SectionInfo.key

/-- `deptSection[dept][key].push(v)` with on-demand initialization of the
inner array. -/
def pushCell (m : String → String → Option (List ℚ)) (a b : String) (v : ℚ) :
    String → String → Option (List ℚ) :=
  fun x y => if x = a ∧ y = b then some ((m a b).getD [] ++ [v]) else m x y

/-- The `SECTIONS.forEach` body of `calculateAggregates` for one response
and one grouping function: push the normalized section score, when
non-null, onto the `(group, sectionKey)` cell. -/
def sectionStep (groupOf : ResponseData → String) (r : ResponseData)
    (m : String → String → Option (List ℚ)) : String → String → Option (List ℚ) :=
  SECTIONS.foldl
    (fun m s =>
      match getSectionScore r s.key with
      | some v => pushCell m (groupOf r) s.key v
      | none => m)
    m

/-- The group × section cell lists accumulated over all responses. -/
def cellsBy (groupOf : ResponseData → String) (rs : List ResponseData) :
    String → String → Option (List ℚ) :=
  rs.foldl (fun m r => sectionStep groupOf r m) (fun _ _ => none)

/-- The department × role cell lists: for each response, push
`toPercentage(r.overall_score)` (non-null) onto the `(dept, role)` cell. -/
def deptRoleCells (rs : List ResponseData) : String → String → Option (List ℚ) :=
  rs.foldl
    (fun m r =>
      match toPercentage (some (.num r.overall_score)) with
      | some v => pushCell m (deptOf r) (roleOf r) v
      | none => m)
    (fun _ _ => none)

/-- `Math.round(scores.reduce((a, b) => a + b, 0) / scores.length)`. -/
def avgList (l : List ℚ) : ℤ := jsRound (l.sum / l.length)

/-- The averaged department × section aggregate map. -/
def avgDeptSection (rs : List ResponseData) (d k : String) : Option ℤ :=
  (cellsBy deptOf rs d k).map avgList

/-- The averaged role × section aggregate map. -/
def avgRoleSection (rs : List ResponseData) (g k : String) : Option ℤ :=
  (cellsBy roleOf rs g k).map avgList

/-- The averaged department × role aggregate map. -/
def avgDeptRole (rs : List ResponseData) (d g : String) : Option ℤ :=
  (deptRoleCells rs d g).map avgList

/-- The `execRoles` constant of the perception-gap block. -/
def execRoles : List String := ["Executive / C-Level", "Director / VP"]

/-- The `staffRoles` constant of the perception-gap block. -/
def staffRoles : List String := ["Individual Contributor / Staff", "Intern / Entry Level"]

/-- The non-null normalized scores of one section over the responses
whose `respondent_role || ''` belongs to the given role list. -/
def roleScores (roles : List String) (rs : List ResponseData) (key : String) : List ℚ :=
  (rs.filter (fun r => roles.contains ((r.respondent_role).getD ""))).filterMap
    (fun r => getSectionScore r key)

/-- One perception-gap finding `{section, execScore, staffScore, gap}`. -/
structure PerceptionGap where
  sectionName : String
  execScore : ℤ
  staffScore : ℤ
  gap : ℤ
deriving DecidableEq

/-- The rounded mean section score of one role set
(`Math.round(scores.reduce(...) / scores.length)`). -/
def roleAvg (roles : List String) (rs : List ResponseData) (key : String) : ℤ :=
  jsRound ((roleScores roles rs key).sum / (roleScores roles rs key).length)

/-- The perception-gap body for one section: emit a finding exactly when
both role sets contributed at least one score and the difference of the
rounded means exceeds 10 in absolute value; the gap is
`execAvg - staffAvg`. -/
def perceptionEntry (rs : List ResponseData) (s : SectionInfo) : Option PerceptionGap :=
  if 0 < (roleScores execRoles rs s.key).length ∧ 0 < (roleScores staffRoles rs s.key).length then
    if 10 < |roleAvg execRoles rs s.key - roleAvg staffRoles rs s.key| then
      some ⟨s.name, roleAvg execRoles rs s.key, roleAvg staffRoles rs s.key,
        roleAvg execRoles rs s.key - roleAvg staffRoles rs s.key⟩
    else none
  else none

/-- `perceptionGaps.sort((a, b) => Math.abs(b.gap) - Math.abs(a.gap))`:
stable sort by absolute gap, descending. -/
def sortByAbsGapDesc (l : List PerceptionGap) : List PerceptionGap :=
  l.mergeSort (fun a b => decide (|b.gap| ≤ |a.gap|))

/-- The emitted perception-gap list: one candidate per section in
`SECTIONS` order, then sorted by absolute gap descending. -/
def perceptionGaps (rs : List ResponseData) : List PerceptionGap :=
  sortByAbsGapDesc (SECTIONS.filterMap (perceptionEntry rs))

/-- `avgOverall`: the mean over all filtered responses of
`toPercentage(r.overall_score) || 0`, rounded; 0 when there are no
responses. -/
def avgOverall (rs : List ResponseData) : ℤ :=
  if 0 < rs.length then
    jsRound ((rs.map (fun r => (toPercentage (some (.num r.overall_score))).getD 0)).sum
      / rs.length)
  else 0

/-! ### Extended runtime model for contract-violating stored values -/

/-- A JS number that may be `NaN` (what the arithmetic of `toPercentage`
produces on non-numeric input). -/
inductive JNum where
  | nan
  | val (q : ℚ)
deriving DecidableEq

/-- `Math.round((x / 4) * 100)` on a possibly-NaN number: `NaN`
propagates. -/
def jsRoundDiv4 : JNum → JNum
  | .nan => .nan
  | .val q => .val ((jsRound (q / 4 * 100) : ℤ) : ℚ)

/-- A stored score value as it may actually occur at runtime: a number,
an object with a `percentage` field, or any other shape (a string, an
array, an object without `percentage`, …).  `coerced` is the JS
`ToNumber` of the malformed value (`NaN` for plain objects and
non-numeric strings). -/
inductive StoredX where
  | num (v : ℚ)
  | obj (score maxVal percentage : ℚ)
  | malformed (coerced : JNum)
deriving DecidableEq

/-- `toPercentage` over the extended runtime model: the `null` check,
then the `typeof score === 'object' && 'percentage' in score` check, and
otherwise the numeric branch `Math.round((score / 4) * 100)`, which on a
malformed value operates on its `ToNumber` coercion. -/
def toPercentageX : Option StoredX → Option JNum
  | none => none
  | some (.obj _ _ p) => some (.val p)
  | some (.num v) => some (jsRoundDiv4 (.val v))
  | some (.malformed c) => some (jsRoundDiv4 c)

/-! ### Fold characterizations for the aggregator -/

/-- The contributing normalized scores of one `(group, key)` cell, in
input order. -/
def contribsBy (groupOf : ResponseData → String) (rs : List ResponseData)
    (x y : String) : List ℚ :=
  rs.filterMap (fun r => if groupOf r = x then getSectionScore r y else none)

/-- The contributing normalized overall scores of one `(dept, role)`
cell, in input order. -/
def contribsDR (rs : List ResponseData) (a b : String) : List ℚ :=
  rs.filterMap (fun r =>
    if deptOf r = a ∧ roleOf r = b then toPercentage (some (.num r.overall_score)) else none)

/-- Append a batch of pushed values onto a possibly-uninitialized cell. -/
def extendCell (o : Option (List ℚ)) (l : List ℚ) : Option (List ℚ) :=
  if l = [] then o else some (o.getD [] ++ l)

/-- Two successive batches of pushes amount to one concatenated batch. -/
theorem extendCell_append (o : Option (List ℚ)) (l1 l2 : List ℚ) :
    extendCell (extendCell o l1) l2 = extendCell o (l1 ++ l2) := by
  by_cases h1 : l1 = [] <;> by_cases h2 : l2 = [] <;>
    simp [extendCell, h1, h2]

/-- Effect of one response's `SECTIONS.forEach` on a single cell, for any
section list with pairwise-distinct keys. -/
theorem sectionStep_apply (groupOf : ResponseData → String) (r : ResponseData) :
    ∀ (ss : List SectionInfo) (m : String → String → Option (List ℚ)) (x y : String),
      (ss.map SectionInfo.key).Nodup →
      List.foldl
        (fun m s =>
          match getSectionScore r s.key with
          | some v => pushCell m (groupOf r) s.key v
          | none => m)
        m ss x y
        = if groupOf r = x ∧ y ∈ ss.map SectionInfo.key
          then extendCell (m x y) (getSectionScore r y).toList
          else m x y
  | [], m, x, y, _ => by simp
  | s :: ss, m, x, y, hnd => by
    rw [List.map_cons, List.nodup_cons] at hnd
    rw [List.foldl_cons]
    have hm1 : (match getSectionScore r s.key with
        | some v => pushCell m (groupOf r) s.key v
        | none => m) x y
        = if groupOf r = x ∧ y = s.key
          then extendCell (m x y) (getSectionScore r y).toList
          else m x y := by
      by_cases hc : groupOf r = x ∧ y = s.key
      · obtain ⟨hx, hy⟩ := hc
        cases hgs : getSectionScore r s.key with
        | none => simp [hy, hgs, extendCell]
        | some v => simp [hy, hgs, pushCell, hx, extendCell]
      · cases hgs : getSectionScore r s.key with
        | none => simp [hc]
        | some v =>
          rw [if_neg hc]
          show pushCell m (groupOf r) s.key v x y = m x y
          rw [pushCell, if_neg]
          intro ⟨hx, hy⟩
          exact hc ⟨hx.symm, hy⟩
    rw [sectionStep_apply groupOf r ss _ x y hnd.2, hm1]
    by_cases hx : groupOf r = x
    · by_cases hy : y = s.key
      · have hynot : y ∉ ss.map SectionInfo.key := hy ▸ hnd.1
        rw [if_neg (fun h => hynot h.2), if_pos ⟨hx, hy⟩,
          if_pos ⟨hx, List.mem_cons.mpr (Or.inl hy)⟩]
      · by_cases hys : y ∈ ss.map SectionInfo.key
        · rw [if_pos ⟨hx, hys⟩, if_neg (fun h => hy h.2),
            if_pos ⟨hx, List.mem_cons.mpr (Or.inr hys)⟩]
        · rw [if_neg (fun h => hys h.2), if_neg (fun h => hy h.2),
            if_neg (fun h => (List.mem_cons.mp h.2).elim hy hys)]
    · rw [if_neg (fun h => hx h.1), if_neg (fun h => hx h.1), if_neg (fun h => hx h.1)]

/-- The section keys are pairwise distinct. -/
theorem sectionKeys_nodup : sectionKeys.Nodup := by
  simp [sectionKeys, SECTIONS]

/-- Effect of the whole response loop on a single group × section cell. -/
theorem cellsBy_foldl (groupOf : ResponseData → String) :
    ∀ (rs : List ResponseData) (m : String → String → Option (List ℚ)) (x y : String),
      List.foldl (fun m r => sectionStep groupOf r m) m rs x y
        = if y ∈ sectionKeys then extendCell (m x y) (contribsBy groupOf rs x y) else m x y
  | [], m, x, y => by simp [contribsBy, extendCell]
  | r :: rs, m, x, y => by
    rw [List.foldl_cons, cellsBy_foldl groupOf rs _ x y]
    have hstep : sectionStep groupOf r m x y
        = if groupOf r = x ∧ y ∈ sectionKeys
          then extendCell (m x y) (getSectionScore r y).toList
          else m x y :=
      sectionStep_apply groupOf r SECTIONS m x y sectionKeys_nodup
    by_cases hy : y ∈ sectionKeys
    · rw [if_pos hy, if_pos hy, hstep]
      by_cases hx : groupOf r = x
      · rw [if_pos ⟨hx, hy⟩, extendCell_append]
        congr 1
        rw [contribsBy, contribsBy, List.filterMap_cons]
        cases hgs : getSectionScore r y with
        | none => simp [hx, hgs]
        | some v => simp [hx, hgs]
      · rw [if_neg (fun h => hx h.1)]
        congr 1
        rw [contribsBy, contribsBy, List.filterMap_cons]
        simp [hx]
    · rw [if_neg hy, if_neg hy, hstep, if_neg (fun h => hy h.2)]

/-- Closed form of a group × section cell: present exactly when some
response contributed, holding the contribution list. -/
theorem cellsBy_eq (groupOf : ResponseData → String) (rs : List ResponseData)
    (x y : String) :
    cellsBy groupOf rs x y
      = if y ∈ sectionKeys then
          (if contribsBy groupOf rs x y = [] then none else some (contribsBy groupOf rs x y))
        else none := by
  rw [cellsBy, cellsBy_foldl groupOf rs _ x y]
  by_cases hy : y ∈ sectionKeys <;> simp [hy, extendCell]

/-- Effect of the response loop on a single department × role cell. -/
theorem deptRoleCells_foldl :
    ∀ (rs : List ResponseData) (m : String → String → Option (List ℚ)) (a b : String),
      List.foldl
        (fun m r =>
          match toPercentage (some (.num r.overall_score)) with
          | some v => pushCell m (deptOf r) (roleOf r) v
          | none => m)
        m rs a b
        = extendCell (m a b) (contribsDR rs a b)
  | [], m, a, b => by simp [contribsDR, extendCell]
  | r :: rs, m, a, b => by
    rw [List.foldl_cons, deptRoleCells_foldl rs _ a b]
    have hm1 : (match toPercentage (some (.num r.overall_score)) with
        | some v => pushCell m (deptOf r) (roleOf r) v
        | none => m) a b
        = if deptOf r = a ∧ roleOf r = b
          then extendCell (m a b) (toPercentage (some (.num r.overall_score))).toList
          else m a b := by
      by_cases hc : deptOf r = a ∧ roleOf r = b
      · obtain ⟨ha, hb⟩ := hc
        cases hgs : toPercentage (some (.num r.overall_score)) with
        | none => simp [hgs, extendCell]
        | some v => simp [hgs, pushCell, ha, hb, extendCell]
      · cases hgs : toPercentage (some (.num r.overall_score)) with
        | none => simp [hc]
        | some v =>
          rw [if_neg hc]
          show pushCell m (deptOf r) (roleOf r) v a b = m a b
          rw [pushCell, if_neg]
          intro ⟨ha, hb⟩
          exact hc ⟨ha.symm, hb.symm⟩
    rw [hm1]
    have hcontr : contribsDR (r :: rs) a b
        = (if deptOf r = a ∧ roleOf r = b
            then (toPercentage (some (.num r.overall_score))).toList else [])
          ++ contribsDR rs a b := by
      rw [contribsDR, contribsDR, List.filterMap_cons]
      by_cases hc : deptOf r = a ∧ roleOf r = b
      · cases hgs : toPercentage (some (.num r.overall_score)) with
        | none => simp [hc, hgs]
        | some v => simp [hc, hgs]
      · simp [hc]
    rw [hcontr]
    by_cases hc : deptOf r = a ∧ roleOf r = b
    · rw [if_pos hc, if_pos hc, extendCell_append]
    · rw [if_neg hc, if_neg hc]
      simp

/-- Closed form of a department × role cell. -/
theorem deptRoleCells_eq (rs : List ResponseData) (a b : String) :
    deptRoleCells rs a b
      = if contribsDR rs a b = [] then none else some (contribsDR rs a b) := by
  rw [deptRoleCells, deptRoleCells_foldl rs _ a b]
  simp [extendCell]

/-- A group × section contribution list is empty exactly when no response
both falls in the group and has a normalizable score for the section. -/
theorem contribsBy_eq_nil_iff (groupOf : ResponseData → String)
    (rs : List ResponseData) (x y : String) :
    contribsBy groupOf rs x y = []
      ↔ ∀ r ∈ rs, ¬(groupOf r = x ∧ (getSectionScore r y).isSome) := by
  rw [contribsBy, List.filterMap_eq_nil_iff]
  constructor
  · intro h r hr hc
    have := h r hr
    rw [if_pos hc.1] at this
    rw [this] at hc
    simp at hc
  · intro h r hr
    by_cases hg : groupOf r = x
    · rw [if_pos hg]
      cases hgs : getSectionScore r y with
      | none => rfl
      | some v => exact absurd ⟨hg, by simp [hgs]⟩ (h r hr)
    · rw [if_neg hg]

/-- A group × section mean cell is present exactly when some response
contributed. -/
theorem avgCell_isSome (groupOf : ResponseData → String) (rs : List ResponseData)
    (x y : String) (hy : y ∈ sectionKeys) :
    ((cellsBy groupOf rs x y).map avgList).isSome
      ↔ ∃ r ∈ rs, groupOf r = x ∧ (getSectionScore r y).isSome := by
  rw [cellsBy_eq, if_pos hy]
  by_cases hc : contribsBy groupOf rs x y = []
  · rw [if_pos hc]
    constructor
    · intro hs
      simp at hs
    · rintro ⟨r, hr, hgr⟩
      exact absurd hgr ((contribsBy_eq_nil_iff groupOf rs x y).mp hc r hr)
  · rw [if_neg hc]
    refine iff_of_true (by simp) ?_
    by_contra hno
    push_neg at hno
    exact hc ((contribsBy_eq_nil_iff groupOf rs x y).mpr
      (fun r hr hgr => hno r hr hgr.1 hgr.2))

/-- A present group × section mean cell holds the rounded arithmetic mean
of its contribution list. -/
theorem avgCell_value (groupOf : ResponseData → String) (rs : List ResponseData)
    (x y : String) (v : ℤ) :
    (cellsBy groupOf rs x y).map avgList = some v →
      v = jsRound ((contribsBy groupOf rs x y).sum / (contribsBy groupOf rs x y).length) := by
  rw [cellsBy_eq]
  by_cases hy : y ∈ sectionKeys
  · rw [if_pos hy]
    by_cases hc : contribsBy groupOf rs x y = []
    · rw [if_pos hc]
      intro h
      simp at h
    · rw [if_neg hc]
      intro h
      rw [Option.map_some'] at h
      rw [← Option.some.inj h, avgList]
  · rw [if_neg hy]
    intro h
    simp at h

/-- C5: a `(group, section)` aggregate cell exists if and only if at
least one contributing response falls in the group with a non-null
normalized score for the section, and its value is the rounded mean of
the contributing normalized percentages; this holds for both the
department × section and the role × section maps. -/
theorem C5_cell_iff_contributor (rs : List ResponseData) (g k : String)
    (hk : k ∈ sectionKeys) :
    ((avgDeptSection rs g k).isSome
      ↔ ∃ r ∈ rs, deptOf r = g ∧ (getSectionScore r k).isSome)
    ∧ (∀ v : ℤ, avgDeptSection rs g k = some v →
        v = jsRound ((contribsBy deptOf rs g k).sum / (contribsBy deptOf rs g k).length))
    ∧ ((avgRoleSection rs g k).isSome
      ↔ ∃ r ∈ rs, roleOf r = g ∧ (getSectionScore r k).isSome)
    ∧ (∀ v : ℤ, avgRoleSection rs g k = some v →
        v = jsRound ((contribsBy roleOf rs g k).sum / (contribsBy roleOf rs g k).length)) :=
  ⟨avgCell_isSome deptOf rs g k hk, fun v => avgCell_value deptOf rs g k v,
   avgCell_isSome roleOf rs g k hk, fun v => avgCell_value roleOf rs g k v⟩

/-- A response whose department is null, with a section score of 75 for
`work_changes` and overall score 80. -/
def rNullDept : ResponseData :=
  ⟨none, some "Manager / Team Lead", none,
   fun k => if k = "work_changes" then some (.obj 6 8 75) else none, 80⟩

/-- Witness for C5 at the one-response list `[rNullDept]`, group
`"Unknown"`, section `work_changes`. -/
theorem C5_witness :
    ((avgDeptSection [rNullDept] "Unknown" "work_changes").isSome
      ↔ ∃ r ∈ [rNullDept], deptOf r = "Unknown" ∧ (getSectionScore r "work_changes").isSome)
    ∧ (∀ v : ℤ, avgDeptSection [rNullDept] "Unknown" "work_changes" = some v →
        v = jsRound ((contribsBy deptOf [rNullDept] "Unknown" "work_changes").sum
          / (contribsBy deptOf [rNullDept] "Unknown" "work_changes").length))
    ∧ ((avgRoleSection [rNullDept] "Unknown" "work_changes").isSome
      ↔ ∃ r ∈ [rNullDept], roleOf r = "Unknown" ∧ (getSectionScore r "work_changes").isSome)
    ∧ (∀ v : ℤ, avgRoleSection [rNullDept] "Unknown" "work_changes" = some v →
        v = jsRound ((contribsBy roleOf [rNullDept] "Unknown" "work_changes").sum
          / (contribsBy roleOf [rNullDept] "Unknown" "work_changes").length)) :=
  C5_cell_iff_contributor [rNullDept] "Unknown" "work_changes"
    (by simp [sectionKeys, SECTIONS])

/-- C7: a response with a null department (resp. role) is bucketed under
the literal `"Unknown"` group; its normalized section scores contribute
to the `"Unknown"` cells of the department × section (resp. role ×
section) map, and its overall score contributes to the `"Unknown"` row
of the department × role map — it is never dropped from aggregation. -/
theorem C7_unknown_bucket (r : ResponseData) :
    (r.respondent_department = none →
      deptOf r = "Unknown"
      ∧ (∀ (rs : List ResponseData) (k : String) (v : ℚ), r ∈ rs → k ∈ sectionKeys →
          getSectionScore r k = some v →
          v ∈ contribsBy deptOf rs "Unknown" k
          ∧ (avgDeptSection rs "Unknown" k).isSome)
      ∧ (∀ rs : List ResponseData, r ∈ rs → (avgDeptRole rs "Unknown" (roleOf r)).isSome))
    ∧ (r.respondent_role = none →
      roleOf r = "Unknown"
      ∧ (∀ (rs : List ResponseData) (k : String) (v : ℚ), r ∈ rs → k ∈ sectionKeys →
          getSectionScore r k = some v →
          v ∈ contribsBy roleOf rs "Unknown" k
          ∧ (avgRoleSection rs "Unknown" k).isSome)) := by
  constructor
  · intro hdept
    have hb : deptOf r = "Unknown" := by simp [deptOf, jsOrUnknown, hdept]
    refine ⟨hb, ?_, ?_⟩
    · intro rs k v hr hk hv
      constructor
      · exact List.mem_filterMap.mpr ⟨r, hr, by rw [if_pos hb, hv]⟩
      · exact (avgCell_isSome deptOf rs "Unknown" k hk).mpr ⟨r, hr, hb, by simp [hv]⟩
    · intro rs hr
      have hmem : ((jsRound (r.overall_score / 4 * 100) : ℤ) : ℚ)
          ∈ contribsDR rs "Unknown" (roleOf r) :=
        List.mem_filterMap.mpr ⟨r, hr, by rw [if_pos ⟨hb, rfl⟩]; rfl⟩
      rw [avgDeptRole, deptRoleCells_eq, if_neg (List.ne_nil_of_mem hmem)]
      simp
  · intro hrole
    have hb : roleOf r = "Unknown" := by simp [roleOf, jsOrUnknown, hrole]
    refine ⟨hb, ?_⟩
    intro rs k v hr hk hv
    constructor
    · exact List.mem_filterMap.mpr ⟨r, hr, by rw [if_pos hb, hv]⟩
    · exact (avgCell_isSome roleOf rs "Unknown" k hk).mpr ⟨r, hr, hb, by simp [hv]⟩

/-- Witness for C7 at the concrete null-department response. -/
theorem C7_witness :
    deptOf rNullDept = "Unknown"
    ∧ ((75:ℚ) ∈ contribsBy deptOf [rNullDept] "Unknown" "work_changes"
        ∧ (avgDeptSection [rNullDept] "Unknown" "work_changes").isSome)
    ∧ (avgDeptRole [rNullDept] "Unknown" (roleOf rNullDept)).isSome := by
  have h := (C7_unknown_bucket rNullDept).1 rfl
  exact ⟨h.1,
    h.2.1 [rNullDept] "work_changes" 75 (by simp) (by simp [sectionKeys, SECTIONS])
      (by simp [getSectionScore, rNullDept, toPercentage]),
    h.2.2 [rNullDept] (by simp)⟩

/-- Permuting the responses leaves every group × section mean cell
unchanged: the contribution lists are permuted, and sum and length are
permutation-invariant. -/
theorem avgCell_perm (groupOf : ResponseData → String) {rs rs' : List ResponseData}
    (h : rs.Perm rs') (x y : String) :
    (cellsBy groupOf rs x y).map avgList = (cellsBy groupOf rs' x y).map avgList := by
  rw [cellsBy_eq, cellsBy_eq]
  by_cases hy : y ∈ sectionKeys
  · rw [if_pos hy, if_pos hy]
    have hp : (contribsBy groupOf rs x y).Perm (contribsBy groupOf rs' x y) :=
      h.filterMap (fun r => if groupOf r = x then getSectionScore r y else none)
    by_cases hc : contribsBy groupOf rs x y = []
    · have hc' : contribsBy groupOf rs' x y = [] := (hc ▸ hp).symm.eq_nil
      rw [if_pos hc, if_pos hc']
    · have hc' : contribsBy groupOf rs' x y ≠ [] := fun hh => hc (hh ▸ hp.symm).symm.eq_nil
      rw [if_neg hc, if_neg hc']
      simp only [Option.map_some', Option.some.injEq, avgList]
      rw [hp.sum_eq, hp.length_eq]
  · rw [if_neg hy, if_neg hy]

/-- Permuting the responses leaves every department × role mean cell
unchanged. -/
theorem deptRoleCell_perm {rs rs' : List ResponseData} (h : rs.Perm rs') (a b : String) :
    (deptRoleCells rs a b).map avgList = (deptRoleCells rs' a b).map avgList := by
  rw [deptRoleCells_eq, deptRoleCells_eq]
  have hp : (contribsDR rs a b).Perm (contribsDR rs' a b) :=
    h.filterMap (fun r =>
      if deptOf r = a ∧ roleOf r = b then toPercentage (some (.num r.overall_score)) else none)
  by_cases hc : contribsDR rs a b = []
  · have hc' : contribsDR rs' a b = [] := (hc ▸ hp).symm.eq_nil
    rw [if_pos hc, if_pos hc']
  · have hc' : contribsDR rs' a b ≠ [] := fun hh => hc (hh ▸ hp.symm).symm.eq_nil
    rw [if_neg hc, if_neg hc']
    simp only [Option.map_some', Option.some.injEq, avgList]
    rw [hp.sum_eq, hp.length_eq]

/-- C9: the aggregator is order-independent — two input lists that are
permutations of each other yield identical department × section,
role × section and department × role aggregate maps: every cell exists
in one exactly when it exists in the other, with equal value. -/
theorem C9_aggregates_order_invariant (rs rs' : List ResponseData)
    (h : rs.Perm rs') (a b : String) :
    avgDeptSection rs a b = avgDeptSection rs' a b
    ∧ avgRoleSection rs a b = avgRoleSection rs' a b
    ∧ avgDeptRole rs a b = avgDeptRole rs' a b :=
  ⟨avgCell_perm deptOf h a b, avgCell_perm roleOf h a b, deptRoleCell_perm h a b⟩

/-- A second response, in department Sales with role Director / VP,
section score 40 on `work_changes`, overall 40. -/
def rSales40 : ResponseData :=
  ⟨some "Sales", some "Director / VP", none,
   fun k => if k = "work_changes" then some (.obj 4 10 40) else none, 40⟩

/-- Witness for C9 at a concrete two-element list and its swap. -/
theorem C9_witness :
    avgDeptSection [rNullDept, rSales40] "Sales" "work_changes"
      = avgDeptSection [rSales40, rNullDept] "Sales" "work_changes"
    ∧ avgRoleSection [rNullDept, rSales40] "Sales" "work_changes"
      = avgRoleSection [rSales40, rNullDept] "Sales" "work_changes"
    ∧ avgDeptRole [rNullDept, rSales40] "Sales" "work_changes"
      = avgDeptRole [rSales40, rNullDept] "Sales" "work_changes" :=
  C9_aggregates_order_invariant [rNullDept, rSales40] [rSales40, rNullDept]
    (List.Perm.swap rSales40 rNullDept []) "Sales" "work_changes"

/-- A response with no section scores and overall score 80 (already on
the percentage scale). -/
def rOverall80 : ResponseData :=
  ⟨some "Sales", some "Manager / Team Lead", none, fun _ => none, 80⟩

/-- C10: the normalizer's numeric branch applies
`Math.round((value / 4) * 100)` to every bare number without validating
the 1–4 range, so a stored overall score of 80 normalizes to 2000 — far
above 100; and this conversion is exactly what feeds the
department × role aggregate and `avgOverall`. -/
theorem C10_numeric_branch_unchecked :
    (∀ v : ℚ, toPercentage (some (.num v)) = some ((jsRound (v / 4 * 100) : ℤ) : ℚ))
    ∧ toPercentage (some (.num 80)) = some 2000
    ∧ (∃ p : ℚ, toPercentage (some (.num 80)) = some p ∧ 100 < p)
    ∧ avgDeptRole [rOverall80] "Sales" "Manager / Team Lead" = some 2000
    ∧ avgOverall [rOverall80] = 2000
    ∧ 100 < avgOverall [rOverall80] := by
  have h80 : toPercentage (some (.num 80)) = some 2000 := by
    show some ((jsRound ((80:ℚ) / 4 * 100) : ℤ) : ℚ) = some 2000
    norm_num [jsRound]
  have hdr : avgDeptRole [rOverall80] "Sales" "Manager / Team Lead" = some 2000 := by
    have hc : contribsDR [rOverall80] "Sales" "Manager / Team Lead" = [2000] := by
      rw [contribsDR, List.filterMap_cons]
      have : deptOf rOverall80 = "Sales" ∧ roleOf rOverall80 = "Manager / Team Lead" := by
        constructor <;> simp [deptOf, roleOf, jsOrUnknown, rOverall80]
      rw [if_pos this]
      have : toPercentage (some (.num rOverall80.overall_score)) = some 2000 := h80
      rw [this]
      rfl
    rw [avgDeptRole, deptRoleCells_eq, hc]
    simp [avgList]
    norm_num [jsRound]
  refine ⟨fun v => rfl, h80, ⟨2000, h80, by norm_num⟩, hdr, ?_, ?_⟩
  · rw [avgOverall, if_pos (by simp)]
    have : (toPercentage (some (.num rOverall80.overall_score))).getD 0 = 2000 := by
      rw [show rOverall80.overall_score = (80:ℚ) from rfl, h80]
      rfl
    simp only [List.map_cons, List.map_nil, this, List.sum_cons, List.sum_nil]
    norm_num [jsRound]
  · rw [avgOverall, if_pos (by simp)]
    have : (toPercentage (some (.num rOverall80.overall_score))).getD 0 = 2000 := by
      rw [show rOverall80.overall_score = (80:ℚ) from rfl, h80]
      rfl
    simp only [List.map_cons, List.map_nil, this, List.sum_cons, List.sum_nil]
    norm_num [jsRound]

/-- C6 counterexample: on a stored value that is neither a number nor a
`{percentage}`-bearing record (a malformed shape whose JS numeric
coercion is `NaN`), `toPercentage` does not fail and does not exclude
the value — it returns `NaN` through the numeric branch, which the
aggregation's `score !== null` test then treats as a present value. -/
theorem C6_counterexample :
    toPercentageX (some (.malformed .nan)) = some .nan
    ∧ (toPercentageX (some (.malformed .nan))).isSome = true :=
  ⟨rfl, rfl⟩

/-- C6 as amended: the analytics normalizer has no failure path at all —
no `InvalidScoreShape` (or any other error) exists in the repository.
`toPercentage` returns `null` exactly on `null`/`undefined` input; every
malformed value falls through to the numeric branch
`Math.round((value / 4) * 100)` applied to its JS numeric coercion
(`NaN` for object shapes without `percentage`), and the carrying
response is therefore included in aggregation rather than excluded. -/
theorem C6_amended_no_failure_path :
    (∀ o : Option StoredX, toPercentageX o = none ↔ o = none)
    ∧ (∀ c : JNum, toPercentageX (some (.malformed c)) = some (jsRoundDiv4 c))
    ∧ (∀ c : JNum, (toPercentageX (some (.malformed c))).isSome = true) := by
  refine ⟨?_, fun c => rfl, fun c => rfl⟩
  intro o
  cases o with
  | none => simp [toPercentageX]
  | some s => cases s <;> simp [toPercentageX]

/-- C8: the perception-gap detector computes each role set's mean per
section directly from the raw responses, emits a finding for a section
exactly when both role sets contributed at least one score and the
absolute difference of the rounded means strictly exceeds 10, signs the
gap as `execAvg - staffAvg` (positive exactly when the executive set
scored higher), and returns the findings sorted by absolute gap
descending. -/
theorem C8_perception_gap_detector (rs : List ResponseData) :
    (∀ s : SectionInfo,
      (perceptionEntry rs s).isSome = true
        ↔ roleScores execRoles rs s.key ≠ [] ∧ roleScores staffRoles rs s.key ≠ []
          ∧ 10 < |roleAvg execRoles rs s.key - roleAvg staffRoles rs s.key|)
    ∧ (∀ (s : SectionInfo) (e : PerceptionGap), perceptionEntry rs s = some e →
        e.execScore = roleAvg execRoles rs s.key
        ∧ e.staffScore = roleAvg staffRoles rs s.key
        ∧ e.gap = e.execScore - e.staffScore
        ∧ (0 < e.gap ↔ e.staffScore < e.execScore))
    ∧ (∀ e : PerceptionGap,
        e ∈ perceptionGaps rs ↔ ∃ s ∈ SECTIONS, perceptionEntry rs s = some e)
    ∧ (perceptionGaps rs).Pairwise (fun a b => |b.gap| ≤ |a.gap|) := by
  have hmem : ∀ e : PerceptionGap,
      e ∈ perceptionGaps rs ↔ ∃ s ∈ SECTIONS, perceptionEntry rs s = some e := by
    intro e
    rw [perceptionGaps, sortByAbsGapDesc, List.mem_mergeSort]
    exact List.mem_filterMap
  refine ⟨?_, ?_, hmem, ?_⟩
  · intro s
    rw [perceptionEntry]
    by_cases h1 : 0 < (roleScores execRoles rs s.key).length
        ∧ 0 < (roleScores staffRoles rs s.key).length
    · rw [if_pos h1]
      by_cases h2 : 10 < |roleAvg execRoles rs s.key - roleAvg staffRoles rs s.key|
      · rw [if_pos h2]
        exact iff_of_true rfl
          ⟨List.length_pos.mp h1.1, List.length_pos.mp h1.2, h2⟩
      · rw [if_neg h2]
        exact iff_of_false (by simp) (fun h => h2 h.2.2)
    · rw [if_neg h1]
      exact iff_of_false (by simp)
        (fun h => h1 ⟨List.length_pos.mpr h.1, List.length_pos.mpr h.2.1⟩)
  · intro s e he
    rw [perceptionEntry] at he
    by_cases h1 : 0 < (roleScores execRoles rs s.key).length
        ∧ 0 < (roleScores staffRoles rs s.key).length
    · rw [if_pos h1] at he
      by_cases h2 : 10 < |roleAvg execRoles rs s.key - roleAvg staffRoles rs s.key|
      · rw [if_pos h2] at he
        rw [← Option.some.inj he]
        refine ⟨rfl, rfl, rfl, ?_⟩
        show 0 < roleAvg execRoles rs s.key - roleAvg staffRoles rs s.key ↔ _
        exact sub_pos
      · rw [if_neg h2] at he
        exact absurd he (by simp)
    · rw [if_neg h1] at he
      exact absurd he (by simp)
  · have htrans : ∀ a b c : PerceptionGap,
        (fun a b => decide (|b.gap| ≤ |a.gap|)) a b →
        (fun a b => decide (|b.gap| ≤ |a.gap|)) b c →
        (fun a b => decide (|b.gap| ≤ |a.gap|)) a c := by
      intro a b c hab hbc
      exact decide_eq_true
        (le_trans (of_decide_eq_true hbc) (of_decide_eq_true hab))
    have htotal : ∀ a b : PerceptionGap,
        ((fun a b => decide (|b.gap| ≤ |a.gap|)) a b
          || (fun a b => decide (|b.gap| ≤ |a.gap|)) b a) = true := by
      intro a b
      rcases le_total |b.gap| |a.gap| with h | h <;> simp [h]
    have hs := List.sorted_mergeSort htrans htotal (SECTIONS.filterMap (perceptionEntry rs))
    exact List.Pairwise.imp (fun h => of_decide_eq_true h) hs

/-- An executive response with a 70 on `work_changes`. -/
def rExecEx : ResponseData :=
  ⟨some "Sales", some "Executive / C-Level", none,
   fun k => if k = "work_changes" then some (.obj 0 0 70) else none, 70⟩

/-- A staff response with a 50 on `work_changes`. -/
def rStaffEx : ResponseData :=
  ⟨some "Operations", some "Individual Contributor / Staff", none,
   fun k => if k = "work_changes" then some (.obj 0 0 50) else none, 50⟩

/-- Witness for C8: with an executive mean of 70 and a staff mean of 50
on `work_changes`, a finding is emitted. -/
theorem C8_witness :
    (perceptionEntry [rExecEx, rStaffEx]
      ⟨"work_changes", "Work Changes", "Work Chg"⟩).isSome = true := by
  rw [(C8_perception_gap_detector [rExecEx, rStaffEx]).1
    ⟨"work_changes", "Work Changes", "Work Chg"⟩]
  have hes : roleScores execRoles [rExecEx, rStaffEx] "work_changes" = [70] := by
    simp [roleScores, execRoles, rExecEx, rStaffEx, getSectionScore, toPercentage]
  have hss : roleScores staffRoles [rExecEx, rStaffEx] "work_changes" = [50] := by
    simp [roleScores, staffRoles, rExecEx, rStaffEx, getSectionScore, toPercentage]
  refine ⟨by simp [hes], by simp [hss], ?_⟩
  rw [roleAvg, roleAvg, hes, hss]
  norm_num [jsRound]

end TTC
